import Mathlib

/-!
Verification of the bubble-sheet recognition core of the `teacher` repository.

The definitions below are a shallow embedding, in Lean, of the Python code in
`BubbleSheetCorrecterModule/` and `app/utils/bubble_sheet_processor.py`:

* `calculate_grade` (compare_bubbles.py) — decoding fill percentages into
  answers, statistics, an exam-model letter and a student-id string;
* `detect_aruco_markers`, `compare_with_reference` (bubble_edge_detector.py) —
  fiducial-marker based registration;
* `detect_bubble_fallback` (bubble_edge_detector.py) — the multi-strategy
  bubble candidate search;
* `calculate_fill_percentage` (bubble_edge_detector.py) — the three-estimate
  fill scorer, with an exact rational implementation of OpenCV's Otsu
  threshold search;
* `process_bubble_sheet` (bubble_sheet_processor.py) — the top-level
  try/except wrapper.

Python floats are modelled as `ℚ`, machine images as total functions
`ℕ → ℕ → ℕ` over an explicit `width × height` domain, and raised exceptions as
`Except String`.
-/

namespace Teacher

attribute [local semireducible] Rat.mul Rat.inv Rat.add Rat.sub

/-- The possible values of `answer` for one question in `calculate_grade`
(compare_bubbles.py lines 51-61): Python `None`, the string `'multiple'`, or a
single letter `chr(65 + index)`. -/
inductive Answer where
  | blank : Answer
  | multiple : Answer
  | letter : Char → Answer
deriving DecidableEq, Repr

/-- One entry of the `answers` list built by `calculate_grade`
(compare_bubbles.py lines 63-67): the dict
`{'question': q+1, 'answer': answer, 'fill_percentages': [...]}`. -/
structure AnswerEntry where
  question : ℕ
  answer : Answer
  fill_percentages : List ℚ
deriving DecidableEq, Repr

/-- The value stored under `result['exam_model']['value']` by `calculate_grade`
(compare_bubbles.py lines 90-95): a letter, `'MULTIPLE'`, or `'BLANK'`. -/
inductive ExamModelValue where
  | modelLetter : Char → ExamModelValue
  | modelMultiple : ExamModelValue
  | modelBlank : ExamModelValue
deriving DecidableEq, Repr

/-- The `result['exam_model']` record of `calculate_grade`
(compare_bubbles.py lines 97-101). -/
structure ExamModelResult where
  value : ExamModelValue
  fill_percentages : List ℚ
  is_valid : Bool
deriving DecidableEq, Repr

/-- One element of `id_bubbles_data` as assembled by `create_visualization`
(compare_bubbles.py lines 259-263): a column index, the row's digit value, and
a fill percentage. -/
structure IdBubble where
  column : ℕ
  number : ℕ
  fill_percent : ℚ
deriving DecidableEq, Repr

/-- The `result['id']` record of `calculate_grade`
(compare_bubbles.py lines 122-125). -/
structure IdResult where
  value : String
  is_complete : Bool
deriving DecidableEq, Repr

/-- The dictionary returned by `calculate_grade`
(compare_bubbles.py lines 74-127), with the three statistics flattened into
fields and the two optional sections as `Option`s. -/
structure GradeResult where
  total_questions : ℕ
  answers : List AnswerEntry
  total_answered : ℕ
  multiple_answers : ℕ
  unanswered : ℕ
  exam_model : Option ExamModelResult
  id : Option IdResult
deriving DecidableEq, Repr

/-- `[i for i, bubble in enumerate(question_bubbles) if bubble['fill_percent'] > FILLING_PERCENT]`
(compare_bubbles.py line 51, and line 88 for the exam model): the indices of
the entries strictly above the threshold `T`. -/
def filledIndices (T : ℚ) (fills : List ℚ) : List ℕ :=
  (fills.enum.filter (fun p => T < p.2)).map (fun p => p.1)

/-- The `if/elif/else` on `len(filled_bubbles)` of compare_bubbles.py
lines 53-61: `0` filled → `None`, `>1` → `'multiple'`, exactly one →
`chr(65 + filled_bubbles[0])`. -/
def answerOfGroup (T : ℚ) (group : List ℚ) : Answer :=
  match filledIndices T group with
  | [] => Answer.blank
  | [i] => Answer.letter (Char.ofNat (65 + i))
  | _ :: _ :: _ => Answer.multiple

/-- `bubbles_data[q*5:(q+1)*5]` (compare_bubbles.py line 48): the five fill
percentages of question `q` (0-based). -/
def questionGroup (bubbles : List ℚ) (q : ℕ) : List ℚ :=
  (bubbles.drop (q * 5)).take 5

/-- The per-question loop of `calculate_grade` (compare_bubbles.py
lines 47-67): question `q` grades the slice `bubbles_data[q*5:(q+1)*5]`. -/
def answersList (T : ℚ) (bubbles : List ℚ) : List AnswerEntry :=
  (List.range (bubbles.length / 5)).map (fun q =>
    { question := q + 1
      answer := answerOfGroup T (questionGroup bubbles q)
      fill_percentages := questionGroup bubbles q })

/-- The exam-model section of `calculate_grade` (compare_bubbles.py
lines 85-101), entered only when `exam_model_data` is truthy (a non-`None`,
non-empty list). -/
def examModelSection (T : ℚ) (examData : List ℚ) : ExamModelResult :=
  let value :=
    match filledIndices T examData with
    | [i] => ExamModelValue.modelLetter (Char.ofNat (65 + i))
    | _ :: _ :: _ => ExamModelValue.modelMultiple
    | [] => ExamModelValue.modelBlank
  { value := value
    fill_percentages := examData
    is_valid := decide (value ≠ ExamModelValue.modelMultiple ∧
                        value ≠ ExamModelValue.modelBlank) }

/-- The per-column body of the ID loop of `calculate_grade` (compare_bubbles.py
lines 108-120): filter the column's bubbles, sort them by `number` (stable,
like Python `list.sort`), keep those strictly above the threshold, and produce
the digit string, `"X"`, or `"_"`. -/
def idColumnString (T : ℚ) (idData : List IdBubble) (col : ℕ) : String :=
  let column_bubbles := (idData.filter (fun b => b.column == col)).mergeSort
    (fun a b => a.number ≤ b.number)
  let filled_bubbles := column_bubbles.filter (fun b => T < b.fill_percent)
  match filled_bubbles with
  | [b] => toString b.number
  | _ :: _ :: _ => "X"
  | [] => "_"

/-- The ID section of `calculate_grade` (compare_bubbles.py lines 104-125):
`for col in range(3, 8)` — only columns 3-7 are decoded — concatenating one
piece per column; `is_complete` iff the string contains neither `'_'` nor
`'X'`. -/
def idSection (T : ℚ) (idData : List IdBubble) : IdResult :=
  let id_number := ((List.range' 3 5).map (idColumnString T idData)).foldl
    (· ++ ·) ""
  { value := id_number
    is_complete := !(id_number.contains '_') && !(id_number.contains 'X') }

/-- `calculate_grade(bubbles_data, id_bubbles_data, exam_model_data)`
(compare_bubbles.py lines 37-127).  `T` is `FILLING_PERCENT` (line 12, an
environment-configured integer, default 50).  The two optional arguments
follow Python truthiness: `None` and the empty list both skip their section
(`if exam_model_data:` / `if id_bubbles_data:`). -/
def calculate_grade (T : ℚ) (bubbles : List ℚ) (idData : Option (List IdBubble))
    (examData : Option (List ℚ)) : GradeResult :=
  let answers := answersList T bubbles
  { total_questions := bubbles.length / 5
    answers := answers
    total_answered := answers.countP (fun a =>
      decide (a.answer ≠ Answer.blank ∧ a.answer ≠ Answer.multiple))
    multiple_answers := answers.countP (fun a => a.answer == Answer.multiple)
    unanswered := answers.countP (fun a => a.answer == Answer.blank)
    exam_model :=
      match examData with
      | none => none
      | some [] => none
      | some d => some (examModelSection T d)
    id :=
      match idData with
      | none => none
      | some [] => none
      | some d => some (idSection T d) }

/-- A 2-D point, as stored in the marker records (floats modelled as `ℚ`). -/
abbrev Point := ℚ × ℚ

/-- A marker record as built by `detect_aruco_markers`
(bubble_edge_detector.py lines 575-579): `{'id': ..., 'center': ...}` (the
raw corner list is not needed downstream of the centroid). -/
structure Marker where
  id : ℕ
  center : Point
deriving DecidableEq, Repr

/-- `np.mean(corners_array, axis=0)` (bubble_edge_detector.py line 574):
the centroid of a corner list. -/
def centroid (corners : List Point) : Point :=
  ((corners.map Prod.fst).sum / corners.length,
   (corners.map Prod.snd).sum / corners.length)

/-- `detect_aruco_markers` (bubble_edge_detector.py lines 551-581), taken from
the point where the OpenCV detector has produced its output: the input is
`ids`/`corners` as `none` (Python `ids is None`, i.e. nothing detected) or a
list of `(id, corners)` pairs.  On `none` the function returns `None`
(line 568); otherwise it maps each detection to a `Marker` whose center is the
corner centroid. -/
def detect_aruco_markers (det : Option (List (ℕ × List Point))) :
    Option (List Marker) :=
  match det with
  | none => none
  | some raw => some (raw.map (fun rc => { id := rc.1, center := centroid rc.2 }))

/-- The nested matching loop of `compare_with_reference`
(bubble_edge_detector.py lines 645-649): for each reference marker, in the
order the reference file stores them, every current marker with the same id
contributes the pair `(ref center, cur center)`. -/
def matchedPairs (refM curM : List Marker) : List (Point × Point) :=
  refM.flatMap (fun r =>
    (curM.filter (fun c => r.id == c.id)).map (fun c => (r.center, c.center)))

/-- `compare_with_reference` (bubble_edge_detector.py lines 630-668), up to the
point where `cv2.getAffineTransform(cur_points[:3], ref_points[:3])` is
invoked: the result of a successful run is the pair of 3-point lists handed to
the affine solve (current-image points first, as in the call).  The `.error`
branches are the two `raise ValueError(...)` statements (lines 639 and 652);
the image warp itself (`cv2.warpAffine`) is outside the embedded fragment. -/
def compare_with_reference (refM : List Marker)
    (curM : Option (List Marker)) :
    Except String (List Point × List Point) :=
  match curM with
  | none => Except.error "No ArUco markers detected in current image"
  | some cur =>
    let pairs := matchedPairs refM cur
    if pairs.length < 3 then
      Except.error "Not enough matching markers found"
    else
      Except.ok ((pairs.map Prod.snd).take 3, (pairs.map Prod.fst).take 3)

/-- The record returned by `process_bubble_sheet`
(bubble_sheet_processor.py lines 154-176), restricted to the fields the spec
talks about. -/
structure ProcessOutcome where
  results : Option GradeResult
  success : Bool
  message : String
deriving DecidableEq, Repr

/-- `process_bubble_sheet` (bubble_sheet_processor.py lines 16-176), embedded
around its registration step: the whole body runs inside `try`, and any
exception — in particular the `ValueError`s of `compare_with_reference` —
reaches the `except` handler (lines 164-176), which returns
`results = None, success = False`.  The grading work done on the success path
(`create_visualization` → `calculate_grade`) is image processing outside this
fragment; its outcome is abstracted as the `grade` argument that the success
record wraps. -/
def process_bubble_sheet (refM : List Marker) (curM : Option (List Marker))
    (grade : GradeResult) : ProcessOutcome :=
  match compare_with_reference refM curM with
  | Except.error e =>
    { results := none
      success := false
      message := "Error processing bubble sheet: " ++ e }
  | Except.ok _ =>
    { results := some grade
      success := true
      message := "Processing completed successfully" }

/-- The marker ids present in both lists, collected in reference-list order
(used to state the registration claims; the code itself never builds this
set explicitly). -/
def commonIds (refM curM : List Marker) : List ℕ :=
  (refM.map Marker.id).filter (fun i => (curM.map Marker.id).contains i)

/-- A bubble candidate as scored inside `detect_bubble_fallback`: the contour
is irrelevant to the selection logic, so a candidate is its circularity plus a
tag distinguishing it. -/
structure Candidate where
  tag : ℕ
  circularity : ℚ
deriving DecidableEq, Repr

/-- One `if circularity > best_circularity` update of `detect_bubble_fallback`
(bubble_edge_detector.py lines 149-151, 174-176 and 206-208): the running
`(best_contour, best_circularity)` pair is replaced only on strict
improvement. -/
def fallbackStep (best : Option Candidate × ℚ) (c : Candidate) :
    Option Candidate × ℚ :=
  if best.2 < c.circularity then (some c, c.circularity) else best

/-- `detect_bubble_fallback(roi, target_area, methods)`
(bubble_edge_detector.py lines 102-210).  The computer-vision interior of each
strategy (thresholding, contour extraction, Hough circles, template matching,
and the area acceptance tests) is abstracted as `accepted m`: the list of
area-accepted candidates strategy `m` produces, in the order the source
iterates them.  What remains — and what this definition embeds — is the
control flow: `for method in methods` runs every strategy with **no break**,
feeding each accepted candidate through the strict-improvement update, from
the initial state `best_contour = None, best_circularity = 0` (lines
106-107). -/
def detect_bubble_fallback (accepted : ℕ → List Candidate)
    (methods : List ℕ) : Option Candidate × ℚ :=
  methods.foldl (fun best m => (accepted m).foldl fallbackStep best) (none, 0)

/-- Modelled from the spec (not from the source): the strategy combinator the
spec describes — "Strategies, tried in order until one yields an accepted
candidate" followed by "Among all accepted candidates across the strategies
actually attempted, keep the one with highest circularity".  Attempting stops
with the first strategy whose accepted-candidate list is non-empty, and the
answer is the best candidate of that list (earlier strategies contributed
nothing). -/
def specFirstSuccessFallback (accepted : ℕ → List Candidate)
    (methods : List ℕ) : Option Candidate × ℚ :=
  match methods with
  | [] => (none, 0)
  | m :: rest =>
    match accepted m with
    | [] => specFirstSuccessFallback accepted rest
    | c :: cs => (c :: cs).foldl fallbackStep (none, 0)

/-- A single-channel image: a `width × height` pixel grid of 8-bit gray values.
`px` is a total function; only the values at coordinates `x < w, y < h`
belong to the image. -/
structure GrayImage where
  w : ℕ
  h : ℕ
  px : ℕ → ℕ → ℕ

/-- The coordinate list of a `w × h` grid, row-major as numpy iterates it. -/
def posList (w h : ℕ) : List (ℕ × ℕ) :=
  (List.range h).flatMap (fun y => (List.range w).map (fun x => (x, y)))

/-- The 256-bin histogram entry `h[i]` of an 8-bit image, as OpenCV's Otsu
implementation (`getThreshVal_Otsu_8u`) computes it. -/
def hist (g : GrayImage) (i : ℕ) : ℕ :=
  ((posList g.w g.h).map (fun q => g.px q.1 q.2)).count i

/-- The running state of OpenCV's Otsu loop: `q1`, `mu1`, `max_sigma`,
`max_val`. -/
structure OtsuState where
  q1 : ℚ
  mu1 : ℚ
  maxSigma : ℚ
  maxVal : ℕ
deriving DecidableEq, Repr

/-- One iteration `i` of the Otsu search loop of OpenCV's
`getThreshVal_Otsu_8u`, transcribed over exact rationals.  The float guard
`min(q1,q2) < FLT_EPSILON || max(q1,q2) > 1-FLT_EPSILON` becomes
`q1 = 0 ∨ q2 = 0`: for the image sizes in this file every non-zero class
weight is a multiple of `1/(w*h)`, far above `FLT_EPSILON`, so the two guards
coincide.  As in the C source, `mu1 := mu1 * q1` and `q1 += p_i` happen before
the guard, also on skipped iterations. -/
def otsuStep (hg : ℕ → ℕ) (scale mu : ℚ) (s : OtsuState) (i : ℕ) : OtsuState :=
  let p_i : ℚ := (hg i : ℚ) * scale
  let mu1a := s.mu1 * s.q1
  let q1 := s.q1 + p_i
  let q2 := 1 - q1
  if q1 = 0 ∨ q2 = 0 then
    { s with q1 := q1, mu1 := mu1a }
  else
    let mu1 := (mu1a + (i : ℚ) * p_i) / q1
    let mu2 := (mu - q1 * mu1) / q2
    let sigma := q1 * q2 * (mu1 - mu2) * (mu1 - mu2)
    if s.maxSigma < sigma then
      { q1 := q1, mu1 := mu1, maxSigma := sigma, maxVal := i }
    else
      { q1 := q1, mu1 := mu1, maxSigma := s.maxSigma, maxVal := s.maxVal }

/-- OpenCV's `getThreshVal_Otsu_8u`, the threshold used by
`cv2.threshold(..., THRESH_BINARY_INV + THRESH_OTSU)` in
`calculate_fill_percentage` (bubble_edge_detector.py line 222), in exact
rational arithmetic: `scale = 1/N`, `mu = Σ i·h[i] · scale`, then the loop
over `i = 0..255` keeps the first `i` whose between-class variance strictly
exceeds all earlier ones.  (`1/N` with `N = 0` is `0` in `ℚ`; the caller's
size guard makes that case unreachable.) -/
def otsuThreshold (g : GrayImage) : ℕ :=
  let N : ℚ := (g.w * g.h : ℕ)
  let scale : ℚ := 1 / N
  let mu : ℚ := ((List.range 256).map (fun (i : ℕ) => (i : ℚ) * (hist g i : ℚ))).sum
    * scale
  ((List.range 256).foldl (otsuStep (hist g) scale mu)
    { q1 := 0, mu1 := 0, maxSigma := 0, maxVal := 0 }).maxVal

/-- An adaptive-threshold classifier: given an image and a coordinate, decide
whether `cv2.adaptiveThreshold(roi_gray, 255, ADAPTIVE_THRESH_GAUSSIAN_C,
THRESH_BINARY_INV, 11, 2)` marks that pixel as foreground
(`src ≤ gaussian_local_mean - 2` over an 11×11 replicated-border block).
The Gaussian smoothing itself runs in IEEE float32 inside OpenCV, so the
classifier is kept as a parameter; `Local5` below captures the one property
of it that the theorems use. -/
def AdaptClassifier : Type := GrayImage → ℕ → ℕ → Bool

/-- The locality of the 11×11-block adaptive threshold: the classification of
pixel `(x, y)` depends only on image values within Chebyshev distance 5 of
`(x, y)` (with `BORDER_REPLICATE`, every sampled coordinate clamps to an
in-image coordinate at distance ≤ 5), for images of equal size.  OpenCV's
`adaptiveThreshold` with `blockSize = 11` satisfies this for any kernel. -/
def Local5 (adapt : AdaptClassifier) : Prop :=
  ∀ (g g' : GrayImage) (x y : ℕ),
    g.w = g'.w → g.h = g'.h →
    (∀ u v : ℕ, u ≤ x + 5 → x ≤ u + 5 → v ≤ y + 5 → y ≤ v + 5 →
      g.px u v = g'.px u v) →
    adapt g x y = adapt g' x y

/-- `cv2.countNonZero(roi_mask)` (bubble_edge_detector.py line 223): the
number of mask pixels. -/
def maskCount (g : GrayImage) (mask : ℕ → ℕ → Bool) : ℕ :=
  ((posList g.w g.h).filter (fun q => mask q.1 q.2)).length

/-- `cv2.mean(roi_gray, mask=roi_mask)[0]` (bubble_edge_detector.py
line 218): the mean gray value over the mask; OpenCV returns `0` when the
mask is empty, which `ℚ`'s division by zero reproduces. -/
def maskMean (g : GrayImage) (mask : ℕ → ℕ → Bool) : ℚ :=
  (((posList g.w g.h).filter (fun q => mask q.1 q.2)).map
    (fun q => (g.px q.1 q.2 : ℚ))).sum / (maskCount g mask : ℚ)

/-- The pixels of the mask that Otsu's `THRESH_BINARY_INV` marks foreground:
`src ≤ threshold` (bubble_edge_detector.py lines 222-225,
`countNonZero(bitwise_and(thresh, roi_mask))`). -/
def otsuFgCount (g : GrayImage) (mask : ℕ → ℕ → Bool) : ℕ :=
  ((posList g.w g.h).filter
    (fun q => mask q.1 q.2 && decide (g.px q.1 q.2 ≤ otsuThreshold g))).length

/-- The pixels of the mask the adaptive classifier marks foreground
(bubble_edge_detector.py lines 230-233). -/
def adaptFgCount (adapt : AdaptClassifier) (g : GrayImage)
    (mask : ℕ → ℕ → Bool) : ℕ :=
  ((posList g.w g.h).filter
    (fun q => mask q.1 q.2 && adapt g q.1 q.2)).length

/-- `calculate_fill_percentage(roi_gray, roi_mask)` (bubble_edge_detector.py
lines 212-240).  The mask array has the image's shape, so the size guard
`roi_mask.size == 0 or roi_gray.size == 0` is `w * h = 0`.  `fill_1` is the
inverted mean intensity, `fill_2` and `fill_3` the foreground percentages
under the Otsu and adaptive binarizations, each `0` when the mask has no
pixel; the result combines them with weights 0.4/0.3/0.3. -/
def calculate_fill_percentage (adapt : AdaptClassifier) (g : GrayImage)
    (mask : ℕ → ℕ → Bool) : ℚ :=
  if g.w * g.h = 0 then 0 else
    let fill_1 : ℚ := (255 - maskMean g mask) / 255 * 100
    let mask_pixels := maskCount g mask
    let fill_2 : ℚ :=
      if 0 < mask_pixels then (otsuFgCount g mask : ℚ) / mask_pixels * 100
      else 0
    let fill_3 : ℚ :=
      if 0 < mask_pixels then
        (adaptFgCount adapt g mask : ℚ) / mask_pixels * 100
      else 0
    fill_1 * (4/10) + fill_2 * (3/10) + fill_3 * (3/10)

/-- Modelled from the spec (not from the source): estimate (i) of the Fill
Scorer section, `(255 - mean_intensity)/255 × 100`. -/
def specMeanEstimate (g : GrayImage) (mask : ℕ → ℕ → Bool) : ℚ :=
  (255 - maskMean g mask) / 255 * 100

/-- Modelled from the spec (not from the source): estimate (ii), the
percentage of mask pixels classified foreground by the automatic global
(Otsu) threshold. -/
def specOtsuEstimate (g : GrayImage) (mask : ℕ → ℕ → Bool) : ℚ :=
  (otsuFgCount g mask : ℚ) / (maskCount g mask : ℚ) * 100

/-- Modelled from the spec (not from the source): estimate (iii), the
percentage of mask pixels classified foreground by the local adaptive
threshold. -/
def specAdaptEstimate (adapt : AdaptClassifier) (g : GrayImage)
    (mask : ℕ → ℕ → Bool) : ℚ :=
  (adaptFgCount adapt g mask : ℚ) / (maskCount g mask : ℚ) * 100

/-- "Pointwise darkening intensities within the mask, all else unchanged"
(claim C6): inside the image domain, `g'` is `≤ g` on mask pixels and equal
to `g` off the mask; the shapes agree. -/
def DarkensWithin (mask : ℕ → ℕ → Bool) (g g' : GrayImage) : Prop :=
  g'.w = g.w ∧ g'.h = g.h ∧
    (∀ x, x < g.w → ∀ y, y < g.h →
      if mask x y then g'.px x y ≤ g.px x y else g'.px x y = g.px x y)

/-- The number of bubbles of ID column `col` whose fill percentage is
strictly above the threshold (the size of `filled_bubbles` in
compare_bubbles.py line 113, stated directly as a count over the data). -/
def colFillCount (T : ℚ) (idData : List IdBubble) (col : ℕ) : ℕ :=
  idData.countP (fun b => b.column == col && decide (T < b.fill_percent))

/-- The first current marker whose id is `i`, or the origin if none matches
(used only to state the spec-modelled ascending-id selection). -/
def markerCenter (l : List Marker) (i : ℕ) : Point :=
  match l.find? (fun m => m.id == i) with
  | some m => m.center
  | none => (0, 0)

/-- Insertion of a value into an ascending list (used only by the
spec-modelled ascending selection below). -/
def insertAsc (a : ℕ) : List ℕ → List ℕ
  | [] => [a]
  | b :: l => if a ≤ b then a :: b :: l else b :: insertAsc a l

/-- Ascending insertion sort (used only by the spec-modelled ascending
selection below). -/
def sortAsc (l : List ℕ) : List ℕ := l.foldr insertAsc []

/-- Modelled from the spec (not from the source): "take the first 3 common
matched centers (by ascending id, for determinism)" — the point pairs of the
3 smallest common marker ids, current-image points first as in the affine
call. -/
def specAscendingSelection (refM curM : List Marker) :
    List Point × List Point :=
  let ids := (sortAsc (commonIds refM curM)).take 3
  (ids.map (markerCenter curM), ids.map (markerCenter refM))

/-- The matched pairs rebuilt with `find?`: each reference marker, in
reference-list order, paired with the **first** current marker of equal id.
When the current ids are duplicate-free this coincides with `matchedPairs`
(proved below); it makes the selection order of `compare_with_reference`
explicit. -/
def orderedMatchedPairs (refM curM : List Marker) : List (Point × Point) :=
  refM.filterMap (fun r =>
    (curM.find? (fun c => r.id == c.id)).map (fun c => (r.center, c.center)))

/-- Reference markers of the C3 registration example: stored (detection)
order `7, 2, 5, 1` — not ascending. -/
def refEx : List Marker :=
  [⟨7, (0, 0)⟩, ⟨2, (1, 0)⟩, ⟨5, (2, 0)⟩, ⟨1, (3, 0)⟩]

/-- Current-image markers of the C3 registration example: same four ids,
different centers. -/
def curEx : List Marker :=
  [⟨1, (30, 1)⟩, ⟨2, (10, 1)⟩, ⟨5, (20, 1)⟩, ⟨7, (0, 1)⟩]

/-- Reference markers of the C2 witness: ids 0, 1, 2. -/
def refW : List Marker := [⟨0, (0, 0)⟩, ⟨1, (1, 0)⟩, ⟨2, (2, 0)⟩]

/-- Current markers of the C2 witness: only ids 0 and 1 in common with
`refW`. -/
def curW : List Marker := [⟨0, (0, 1)⟩, ⟨1, (1, 1)⟩, ⟨9, (2, 1)⟩]

/-- A grade record used to instantiate the abstracted success path of
`process_bubble_sheet` in witnesses. -/
def emptyGrade : GradeResult :=
  { total_questions := 0, answers := [], total_answered := 0
    multiple_answers := 0, unanswered := 0, exam_model := none, id := none }

/-- Candidate accepted by the first strategy of the C4 example
(circularity 1/2). -/
def candLow : Candidate := ⟨0, 1/2⟩

/-- Candidate accepted by the second strategy of the C4 example
(circularity 9/10). -/
def candHigh : Candidate := ⟨1, 9/10⟩

/-- Accepted-candidate lists of the C4 example: strategy 0 accepts `candLow`,
strategy 1 accepts `candHigh`, later strategies accept nothing. -/
def accEx : ℕ → List Candidate :=
  fun m => if m = 0 then [candLow] else if m = 1 then [candHigh] else []

/-- ID bubble data of the C8 example: the five decoded columns 3-7, ten rows
each, with only column 5 (the third decoded column, position 2 of the id
string) filled at row 7 with 80%. -/
def idExample : List IdBubble :=
  (List.range' 3 5).flatMap (fun c =>
    (List.range 10).map (fun n =>
      ⟨c, n, if c = 5 ∧ n = 7 then 80 else 0⟩))

/-- The C6 "before" image: a 13×1 strip, pixels 0-4 at gray 100 (the bubble
interior), pixels 5-12 at gray 120. -/
def gBefore : GrayImage :=
  ⟨13, 1, fun x _ => if x ≤ 4 then 100 else 120⟩

/-- The C6 "after" image: pixel 12 — a mask pixel at Chebyshev distance ≥ 6
from the other mask pixels — darkened from 120 to 0; everything else
unchanged. -/
def gAfter : GrayImage :=
  ⟨13, 1, fun x _ => if x ≤ 4 then 100 else if x = 12 then 0 else 120⟩

/-- The C6 candidate mask: pixels 0-4 and pixel 12. -/
def exMask : ℕ → ℕ → Bool :=
  fun x _ => decide (x ≤ 4) || decide (x = 12)

/-- A 1×1 all-black image (witness input for the fill-scorer theorems). -/
def onePixel : GrayImage := ⟨1, 1, fun _ _ => 0⟩

/-- The all-true mask (witness input). -/
def fullMask : ℕ → ℕ → Bool := fun _ _ => true

/-- A trivially local adaptive classifier (classifies nothing as foreground);
used only to instantiate witnesses. -/
def adaptNone : AdaptClassifier := fun _ _ _ => false

/-- The between-class variance `otsuStep` computes at a histogram gap
(`h[i] = 0`), expressed in the state's own fields; used to show that a run of
empty bins leaves the search state unchanged. -/
def otsuSigma (mu : ℚ) (s : OtsuState) : ℚ :=
  s.q1 * (1 - s.q1) * (s.mu1 - (mu - s.q1 * s.mu1) / (1 - s.q1))
    * (s.mu1 - (mu - s.q1 * s.mu1) / (1 - s.q1))

/-! ### Lemmas about the answer decoder -/

lemma enumFrom_filter_length (T : ℚ) (l : List ℚ) :
    ∀ n : ℕ,
      ((List.enumFrom n l).filter (fun p => decide (T < p.2))).length
        = l.countP (fun v => decide (T < v)) := by
  induction l with
  | nil => intro n; simp
  | cons a l ih =>
    intro n
    rw [List.enumFrom_cons, List.filter_cons, List.countP_cons]
    by_cases h : T < a
    · simp [h, ih]
    · simp [h, ih]

lemma length_filledIndices (T : ℚ) (l : List ℚ) :
    (filledIndices T l).length = l.countP (fun v => decide (T < v)) := by
  unfold filledIndices
  rw [List.length_map]
  exact enumFrom_filter_length T l 0

lemma enumFrom_filter_nil (T : ℚ) (l : List ℚ) (hno : ∀ x ∈ l, ¬ T < x)
    (n : ℕ) :
    (List.enumFrom n l).filter (fun p => decide (T < p.2)) = [] := by
  induction l generalizing n with
  | nil => simp
  | cons a l ih =>
    rw [List.enumFrom_cons, List.filter_cons]
    have ha : ¬ T < a := hno a (by simp)
    simp only [decide_eq_false ha, Bool.false_eq_true, if_false]
    exact ih (fun x hx => hno x (by simp [hx])) (n + 1)

lemma enumFrom_filter_singleton (T : ℚ) (l : List ℚ) :
    ∀ (n i : ℕ) (hi : i < l.length), T < l.get ⟨i, hi⟩ →
      (∀ j (hj : j < l.length), T < l.get ⟨j, hj⟩ → j = i) →
      ((List.enumFrom n l).filter (fun p => decide (T < p.2))).map Prod.fst
        = [n + i] := by
  induction l with
  | nil => intro n i hi; exact absurd hi (by simp)
  | cons a l ih =>
    intro n i hi hT hu
    rw [List.enumFrom_cons, List.filter_cons]
    cases i with
    | zero =>
      have ha : T < a := hT
      have htail :
          (List.enumFrom (n + 1) l).filter (fun p => decide (T < p.2)) = [] := by
        apply enumFrom_filter_nil
        intro x hx hTx
        obtain ⟨⟨j, hj⟩, rfl⟩ := List.mem_iff_get.mp hx
        exact absurd (hu (j + 1) (by simpa using hj) hTx) (by omega)
      simp [ha, htail]
    | succ j =>
      have hna : ¬ T < a := fun h =>
        absurd (hu 0 (by simp) h) (by omega)
      have hj : j < l.length := by simpa using hi
      have := ih (n + 1) j hj hT
        (fun k hk hTk => by
          have := hu (k + 1) (by simpa using hk) hTk
          omega)
      simp only [decide_eq_false hna, Bool.false_eq_true, if_false]
      rw [this]
      congr 1
      omega

lemma filledIndices_eq_singleton (T : ℚ) (l : List ℚ) (i : ℕ)
    (hi : i < l.length) (hT : T < l.get ⟨i, hi⟩)
    (hu : ∀ j (hj : j < l.length), T < l.get ⟨j, hj⟩ → j = i) :
    filledIndices T l = [i] := by
  have := enumFrom_filter_singleton T l 0 i hi hT hu
  simpa using this

lemma answerOfGroup_blank_iff (T : ℚ) (group : List ℚ) :
    answerOfGroup T group = Answer.blank ↔
      group.countP (fun v => decide (T < v)) = 0 := by
  rw [← length_filledIndices]
  unfold answerOfGroup
  rcases h : filledIndices T group with _ | ⟨a, _ | ⟨b, l⟩⟩ <;> simp [h]

lemma answerOfGroup_multiple_iff (T : ℚ) (group : List ℚ) :
    answerOfGroup T group = Answer.multiple ↔
      1 < group.countP (fun v => decide (T < v)) := by
  rw [← length_filledIndices]
  unfold answerOfGroup
  rcases h : filledIndices T group with _ | ⟨a, _ | ⟨b, l⟩⟩ <;> simp [h]

lemma answerOfGroup_letter (T : ℚ) (group : List ℚ) (i : ℕ)
    (hi : i < group.length) (hT : T < group.get ⟨i, hi⟩)
    (hu : ∀ j (hj : j < group.length), T < group.get ⟨j, hj⟩ → j = i) :
    answerOfGroup T group = Answer.letter (Char.ofNat (65 + i)) := by
  unfold answerOfGroup
  rw [filledIndices_eq_singleton T group i hi hT hu]

lemma grade_answers_getElem? (T : ℚ) (bubbles : List ℚ)
    (idD : Option (List IdBubble)) (examD : Option (List ℚ)) (q : ℕ)
    (hq : q < bubbles.length / 5) :
    (calculate_grade T bubbles idD examD).answers[q]? =
      some ⟨q + 1, answerOfGroup T (questionGroup bubbles q),
            questionGroup bubbles q⟩ := by
  show (answersList T bubbles)[q]? = _
  unfold answersList
  rw [List.getElem?_map, List.getElem?_range hq]
  rfl

/-- C1: for every bubble list organized in groups of 5 per question, the
decoder maps each question to `None` when 0 of its fills exceed the threshold,
to `'multiple'` when more than 1 exceed it, and to `chr(65 + i)` when index
`i` is the only one exceeding it; and `[5,5,5,72,5]` at the default threshold
50 decodes to `'D'`. -/
theorem answer_decoder_per_question (T : ℚ) (bubbles : List ℚ) (q : ℕ)
    (hq : q < (calculate_grade T bubbles none none).total_questions) :
    ((calculate_grade T bubbles none none).answers[q]? =
        some ⟨q + 1, answerOfGroup T (questionGroup bubbles q),
              questionGroup bubbles q⟩) ∧
    (answerOfGroup T (questionGroup bubbles q) = Answer.blank ↔
        (questionGroup bubbles q).countP (fun v => decide (T < v)) = 0) ∧
    (answerOfGroup T (questionGroup bubbles q) = Answer.multiple ↔
        1 < (questionGroup bubbles q).countP (fun v => decide (T < v))) ∧
    (∀ i (hi : i < (questionGroup bubbles q).length),
        T < (questionGroup bubbles q).get ⟨i, hi⟩ →
        (∀ j (hj : j < (questionGroup bubbles q).length),
            T < (questionGroup bubbles q).get ⟨j, hj⟩ → j = i) →
        answerOfGroup T (questionGroup bubbles q)
          = Answer.letter (Char.ofNat (65 + i))) ∧
    (calculate_grade 50 [5, 5, 5, 72, 5] none none).answers.map
        AnswerEntry.answer = [Answer.letter 'D'] := by
  have hq' : q < bubbles.length / 5 := hq
  refine ⟨grade_answers_getElem? T bubbles none none q hq',
    answerOfGroup_blank_iff T _, answerOfGroup_multiple_iff T _,
    fun i hi hT hu => answerOfGroup_letter T _ i hi hT hu, by decide⟩

/-- Witness for C1 at `T = 50`, `bubbles = [5,5,5,72,5]`, `q = 0`. -/
theorem answer_decoder_per_question_witness :
    0 < (calculate_grade 50 [5, 5, 5, 72, 5] none none).total_questions ∧
    ((calculate_grade (50 : ℚ) [5, 5, 5, 72, 5] none none).answers[0]? =
        some ⟨1, answerOfGroup 50 (questionGroup [5, 5, 5, 72, 5] 0),
              questionGroup [5, 5, 5, 72, 5] 0⟩) := by
  refine ⟨by decide, (answer_decoder_per_question 50 [5, 5, 5, 72, 5] 0 (by decide)).1⟩

/-- C7: the fill threshold is exclusive — with every fill at most `T` the
question is blank (in particular when one candidate sits exactly at `T`),
and raising that candidate one unit above `T` makes it the selected letter. -/
theorem threshold_exclusive (T : ℚ) (fills : List ℚ) (h5 : fills.length = 5)
    (i : ℕ) (hi : i < fills.length) (hatT : fills.get ⟨i, hi⟩ = T)
    (hall : ∀ j (hj : j < fills.length), fills.get ⟨j, hj⟩ ≤ T) :
    (calculate_grade T fills none none).answers.map AnswerEntry.answer
        = [Answer.blank] ∧
    (calculate_grade T (fills.set i (T + 1)) none none).answers.map
        AnswerEntry.answer = [Answer.letter (Char.ofNat (65 + i))] := by
  have hq1 : fills.length / 5 = 1 := by rw [h5]
  have hgroup : questionGroup fills 0 = fills := by
    unfold questionGroup
    simp [List.take_of_length_le, h5]
  constructor
  · have hanswers : (calculate_grade T fills none none).answers
        = [⟨1, answerOfGroup T (questionGroup fills 0), questionGroup fills 0⟩] := by
      show answersList T fills = _
      unfold answersList
      rw [hq1]
      rfl
    rw [hanswers]
    have : answerOfGroup T (questionGroup fills 0) = Answer.blank := by
      rw [hgroup, answerOfGroup_blank_iff, List.countP_eq_zero]
      intro v hv
      obtain ⟨⟨j, hj⟩, rfl⟩ := List.mem_iff_get.mp hv
      simpa using not_lt.mpr (hall j hj)
    simp [this]
  · set fills' := fills.set i (T + 1) with hfills'
    have h5' : fills'.length = 5 := by simp [hfills', h5]
    have hq1' : fills'.length / 5 = 1 := by rw [h5']
    have hgroup' : questionGroup fills' 0 = fills' := by
      unfold questionGroup
      simp [List.take_of_length_le, h5']
    have hanswers : (calculate_grade T fills' none none).answers
        = [⟨1, answerOfGroup T (questionGroup fills' 0), questionGroup fills' 0⟩] := by
      show answersList T fills' = _
      unfold answersList
      rw [hq1']
      rfl
    rw [hanswers]
    have hi' : i < fills'.length := by rw [h5']; omega
    have hTi : T < fills'.get ⟨i, hi'⟩ := by
      have : fills'.get ⟨i, hi'⟩ = T + 1 := List.get_set_eq (l := fills) (a := T + 1) hi'
      rw [this]
      linarith
    have huniq : ∀ j (hj : j < fills'.length), T < fills'.get ⟨j, hj⟩ → j = i := by
      intro j hj hTj
      by_contra hne
      have hjf : j < fills.length := by rw [h5]; rw [h5'] at hj; exact hj
      have : fills'.get ⟨j, hj⟩ = fills.get ⟨j, hjf⟩ := by
        simp [hfills', List.getElem_set_ne (h := Ne.symm hne)]
      rw [this] at hTj
      exact absurd hTj (not_lt.mpr (hall j hjf))
    have : answerOfGroup T (questionGroup fills' 0)
        = Answer.letter (Char.ofNat (65 + i)) := by
      rw [hgroup']
      exact answerOfGroup_letter T fills' i hi' hTi huniq
    simp [this]

/-- Witness for C7 at `T = 50`, `fills = [50, 0, 0, 0, 0]`, `i = 0`. -/
theorem threshold_exclusive_witness :
    ([(50 : ℚ), 0, 0, 0, 0].length = 5) ∧
    ((calculate_grade 50 [(50 : ℚ), 0, 0, 0, 0] none none).answers.map
        AnswerEntry.answer = [Answer.blank]) := by
  refine ⟨by decide, (threshold_exclusive 50 [50, 0, 0, 0, 0] (by decide) 0
    (by decide) (by decide) (by decide)).1⟩

lemma countP_answer_partition (l : List AnswerEntry) :
    l.countP (fun a =>
        decide (a.answer ≠ Answer.blank ∧ a.answer ≠ Answer.multiple))
      + l.countP (fun a => a.answer == Answer.multiple)
      + l.countP (fun a => a.answer == Answer.blank) = l.length := by
  induction l with
  | nil => rfl
  | cons a l ih =>
    rw [List.countP_cons, List.countP_cons, List.countP_cons, List.length_cons]
    rcases h : a.answer with _ | _ | c <;> simp [h] at ih ⊢ <;> omega

lemma answersList_take (T : ℚ) (bubbles : List ℚ) :
    answersList T (bubbles.take (5 * (bubbles.length / 5)))
      = answersList T bubbles := by
  have hle : 5 * (bubbles.length / 5) ≤ bubbles.length := Nat.mul_div_le _ 5
  have hlen : (bubbles.take (5 * (bubbles.length / 5))).length
      = 5 * (bubbles.length / 5) := by
    rw [List.length_take]
    omega
  have hdiv : (bubbles.take (5 * (bubbles.length / 5))).length / 5
      = bubbles.length / 5 := by
    rw [hlen]
    exact Nat.mul_div_cancel_left _ (by norm_num)
  unfold answersList
  rw [hdiv]
  apply List.map_congr_left
  intro q hq
  have hq5 : q * 5 + 5 ≤ 5 * (bubbles.length / 5) := by
    rw [List.mem_range] at hq
    omega
  have hgroup : questionGroup (bubbles.take (5 * (bubbles.length / 5))) q
      = questionGroup bubbles q := by
    unfold questionGroup
    rw [List.drop_take, List.take_take]
    congr 1
    omega
  rw [hgroup]

/-- C10: the statistics partition the questions
(`total_answered + multiple_answers + unanswered = total_questions`),
`total_questions = ⌊len/5⌋`, each answer is one of a letter, `'multiple'` or
`None`, and trailing bubbles beyond the last complete group of 5 change
nothing in the result. -/
theorem statistics_partition (T : ℚ) (bubbles : List ℚ)
    (idD : Option (List IdBubble)) (examD : Option (List ℚ)) :
    ((calculate_grade T bubbles idD examD).total_answered
        + (calculate_grade T bubbles idD examD).multiple_answers
        + (calculate_grade T bubbles idD examD).unanswered
      = (calculate_grade T bubbles idD examD).total_questions) ∧
    ((calculate_grade T bubbles idD examD).total_questions
      = bubbles.length / 5) ∧
    (∀ e ∈ (calculate_grade T bubbles idD examD).answers,
        e.answer = Answer.blank ∨ e.answer = Answer.multiple ∨
          ∃ c, e.answer = Answer.letter c) ∧
    (calculate_grade T (bubbles.take (5 * (bubbles.length / 5))) idD examD
      = calculate_grade T bubbles idD examD) := by
  refine ⟨?_, rfl, ?_, ?_⟩
  · show (answersList T bubbles).countP _ + (answersList T bubbles).countP _
        + (answersList T bubbles).countP _ = bubbles.length / 5
    rw [countP_answer_partition]
    unfold answersList
    rw [List.length_map, List.length_range]
  · intro e _
    rcases h : e.answer with _ | _ | c
    · exact Or.inl rfl
    · exact Or.inr (Or.inl rfl)
    · exact Or.inr (Or.inr ⟨c, rfl⟩)
  · have hA := answersList_take T bubbles
    have hle : 5 * (bubbles.length / 5) ≤ bubbles.length := Nat.mul_div_le _ 5
    have hdiv : (bubbles.take (5 * (bubbles.length / 5))).length / 5
        = bubbles.length / 5 := by
      rw [List.length_take]
      rw [min_eq_left hle]
      exact Nat.mul_div_cancel_left _ (by norm_num)
    simp only [calculate_grade, hA, hdiv]

/-! ### Lemmas about the student-id decoder -/

lemma idColumn_filled_length (T : ℚ) (idData : List IdBubble) (col : ℕ) :
    (((idData.filter (fun b => b.column == col)).mergeSort
        (fun a b => a.number ≤ b.number)).filter
          (fun b => decide (T < b.fill_percent))).length
      = colFillCount T idData col := by
  rw [← List.countP_eq_length_filter]
  rw [List.Perm.countP_eq _ (List.mergeSort_perm _ _)]
  rw [List.countP_eq_length_filter, List.filter_filter]
  unfold colFillCount
  rw [List.countP_eq_length_filter]
  congr 1
  apply List.filter_congr
  intro b _
  exact Bool.and_comm _ _

lemma idColumnString_of_zero (T : ℚ) (idData : List IdBubble) (col : ℕ)
    (h : colFillCount T idData col = 0) :
    idColumnString T idData col = "_" := by
  simp only [idColumnString]
  rw [← idColumn_filled_length T idData col, List.length_eq_zero] at h
  rw [h]

lemma idColumnString_of_many (T : ℚ) (idData : List IdBubble) (col : ℕ)
    (h : 1 < colFillCount T idData col) :
    idColumnString T idData col = "X" := by
  simp only [idColumnString]
  rw [← idColumn_filled_length T idData col] at h
  rcases hl : ((idData.filter (fun b => b.column == col)).mergeSort
      (fun a b => a.number ≤ b.number)).filter
        (fun b => decide (T < b.fill_percent)) with _ | ⟨a, _ | ⟨b, l⟩⟩
  · rw [hl] at h; simp at h
  · rw [hl] at h; simp at h
  · rw [hl]

lemma idColumnString_of_one (T : ℚ) (idData : List IdBubble) (col : ℕ)
    (b : IdBubble) (hb : b ∈ idData) (hcol : b.column = col)
    (hfill : T < b.fill_percent) (h1 : colFillCount T idData col = 1) :
    idColumnString T idData col = toString b.number := by
  simp only [idColumnString]
  rw [← idColumn_filled_length T idData col, List.length_eq_one] at h1
  obtain ⟨a, ha⟩ := h1
  have hbmem : b ∈ ((idData.filter (fun x => x.column == col)).mergeSort
      (fun x y => x.number ≤ y.number)).filter
        (fun x => decide (T < x.fill_percent)) := by
    rw [List.mem_filter, List.mem_mergeSort, List.mem_filter]
    exact ⟨⟨hb, by simp [hcol]⟩, by simp [hfill]⟩
  rw [ha] at hbmem ⊢
  have : b = a := by simpa using hbmem
  rw [this]

lemma foldl_append_data (ps : List String) :
    ∀ acc : String, (ps.foldl (· ++ ·) acc).data
      = acc.data ++ (ps.map String.data).join := by
  induction ps with
  | nil => intro acc; simp
  | cons p ps ih =>
    intro acc
    rw [List.foldl_cons, ih]
    simp

lemma idSection_value_data (T : ℚ) (idData : List IdBubble) :
    (idSection T idData).value.data
      = (((List.range' 3 5).map (idColumnString T idData)).map
          String.data).join := by
  unfold idSection
  rw [foldl_append_data]
  rfl

lemma idSection_complete_iff (T : ℚ) (idData : List IdBubble) :
    (idSection T idData).is_complete = true ↔
      ('_' ∉ (idSection T idData).value.data ∧
       'X' ∉ (idSection T idData).value.data) := by
  unfold idSection
  simp only [Bool.and_eq_true, Bool.not_eq_true']
  rw [← Bool.not_eq_true, ← Bool.not_eq_true]
  rw [String.contains_iff, String.contains_iff]

lemma grade_id_some (T : ℚ) (bubbles : List ℚ) (examD : Option (List ℚ))
    (idData : List IdBubble) (hne : idData ≠ []) :
    (calculate_grade T bubbles (some idData) examD).id
      = some (idSection T idData) := by
  rcases idData with _ | ⟨b, bs⟩
  · exact absurd rfl hne
  · rfl

lemma toString_digit (n : ℕ) (h : n < 10) :
    (toString n).data = [Nat.digitChar n] := by
  interval_cases n <;> rfl

/-- C8: the student-id decoder emits, per decoded column, `'_'` for 0 filled
bubbles, the row's digit for exactly 1, `'X'` for more than 1; the pieces are
concatenated in column order over the decoded digit columns (3-7), and
`is_complete` holds exactly when the string contains neither `'_'` nor `'X'`;
the spec's example (only the third decoded column has row 7 filled at 80%)
yields `"__7__"` and `is_complete = false`. -/
theorem student_id_decoder :
    (∀ (T : ℚ) (idData : List IdBubble), idData ≠ [] →
      (calculate_grade T [] (some idData) none).id
          = some (idSection T idData) ∧
      (idSection T idData).value.data
          = (((List.range' 3 5).map (idColumnString T idData)).map
              String.data).join ∧
      (∀ col ∈ List.range' 3 5,
        (colFillCount T idData col = 0 → idColumnString T idData col = "_") ∧
        (1 < colFillCount T idData col → idColumnString T idData col = "X") ∧
        (∀ b ∈ idData, b.column = col → T < b.fill_percent →
          colFillCount T idData col = 1 →
            idColumnString T idData col = toString b.number ∧
            (b.number < 10 →
              (idColumnString T idData col).data = [Nat.digitChar b.number]))) ∧
      ((idSection T idData).is_complete = true ↔
        ('_' ∉ (idSection T idData).value.data ∧
         'X' ∉ (idSection T idData).value.data))) ∧
    (calculate_grade 50 [] (some idExample) none).id
      = some ⟨"__7__", false⟩ := by
  constructor
  · intro T idData hne
    refine ⟨grade_id_some T [] none idData hne,
      idSection_value_data T idData, ?_, idSection_complete_iff T idData⟩
    intro col _
    refine ⟨idColumnString_of_zero T idData col,
      idColumnString_of_many T idData col, ?_⟩
    intro b hb hcol hfill h1
    refine ⟨idColumnString_of_one T idData col b hb hcol hfill h1, ?_⟩
    intro h10
    rw [idColumnString_of_one T idData col b hb hcol hfill h1]
    exact toString_digit b.number h10
  · have p3 : idColumnString 50 idExample 3 = "_" :=
      idColumnString_of_zero 50 idExample 3 (by decide)
    have p4 : idColumnString 50 idExample 4 = "_" :=
      idColumnString_of_zero 50 idExample 4 (by decide)
    have p5 : idColumnString 50 idExample 5 = "7" :=
      idColumnString_of_one 50 idExample 5 ⟨5, 7, 80⟩ (by decide) rfl
        (by norm_num) (by decide)
    have p6 : idColumnString 50 idExample 6 = "_" :=
      idColumnString_of_zero 50 idExample 6 (by decide)
    have p7 : idColumnString 50 idExample 7 = "_" :=
      idColumnString_of_zero 50 idExample 7 (by decide)
    have hpieces : (List.range' 3 5).map (idColumnString 50 idExample)
        = ["_", "_", "7", "_", "_"] := by
      rw [show List.range' 3 5 = [3, 4, 5, 6, 7] from rfl]
      simp [p3, p4, p5, p6, p7]
    have hval : (idSection 50 idExample).value = "__7__" := by
      show ((List.range' 3 5).map (idColumnString 50 idExample)).foldl
          (· ++ ·) "" = "__7__"
      rw [hpieces]
      rfl
    have hic : (idSection 50 idExample).is_complete = false := by
      rw [← Bool.not_eq_true]
      intro h
      have := (idSection_complete_iff 50 idExample).mp h
      rw [hval] at this
      exact this.1 (by decide)
    have hsec : idSection 50 idExample = ⟨"__7__", false⟩ := by
      rw [show idSection 50 idExample
          = ⟨(idSection 50 idExample).value,
             (idSection 50 idExample).is_complete⟩ from rfl, hval, hic]
    rw [grade_id_some 50 [] none idExample (by decide), hsec]

/-! ### Lemmas about marker matching and registration -/

lemma filter_eq_find?_toList (curM : List Marker)
    (hnd : (curM.map Marker.id).Nodup) (r : Marker) :
    curM.filter (fun c => r.id == c.id)
      = (curM.find? (fun c => r.id == c.id)).toList := by
  induction curM with
  | nil => rfl
  | cons c cs ih =>
    rw [List.map_cons, List.nodup_cons] at hnd
    rw [List.filter_cons, List.find?_cons]
    by_cases h : r.id = c.id
    · have hb : (r.id == c.id) = true := by simp [h]
      rw [hb]
      simp only [if_true]
      have : cs.filter (fun x => r.id == x.id) = [] := by
        rw [List.filter_eq_nil_iff]
        intro x hx hbx
        apply hnd.1
        have hxid : r.id = x.id := by simpa using hbx
        rw [← h, hxid]
        exact List.mem_map_of_mem Marker.id hx
      rw [this]
      rfl
    · have hb : (r.id == c.id) = false := by simp [h]
      rw [hb]
      simp only [Bool.false_eq_true, if_false]
      exact ih hnd.2

lemma matchedPairs_eq_ordered (refM curM : List Marker)
    (hnd : (curM.map Marker.id).Nodup) :
    matchedPairs refM curM = orderedMatchedPairs refM curM := by
  unfold matchedPairs orderedMatchedPairs
  induction refM with
  | nil => rfl
  | cons r rs ih =>
    rw [List.flatMap_cons, List.filterMap_cons]
    rw [filter_eq_find?_toList curM hnd r]
    cases hf : curM.find? (fun c => r.id == c.id) with
    | none => simpa [hf] using ih
    | some c => simpa [hf] using ih

lemma matchedPairs_length (refM curM : List Marker)
    (hnd : (curM.map Marker.id).Nodup) :
    (matchedPairs refM curM).length = (commonIds refM curM).length := by
  rw [matchedPairs_eq_ordered refM curM hnd]
  unfold orderedMatchedPairs commonIds
  induction refM with
  | nil => rfl
  | cons r rs ih =>
    rw [List.filterMap_cons, List.map_cons, List.filter_cons]
    cases hf : curM.find? (fun c => r.id == c.id) with
    | none =>
      have hmem : ¬ (curM.map Marker.id).contains r.id := by
        rw [List.find?_eq_none] at hf
        simp only [List.contains_iff_exists_mem_beq]
        rintro ⟨i, hi, hbeq⟩
        obtain ⟨c, hc, rfl⟩ := List.mem_map.mp hi
        exact absurd (hf c hc) (by simp; simpa using hbeq)
      rw [Bool.not_eq_true] at hmem
      rw [hmem]
      simpa using ih
    | some c =>
      have hmem : (curM.map Marker.id).contains r.id = true := by
        have hc := List.mem_of_find?_eq_some hf
        have hbeq := List.find?_some hf
        rw [List.contains_iff_exists_mem_beq]
        exact ⟨c.id, List.mem_map_of_mem Marker.id hc, by simpa using hbeq⟩
      rw [hmem]
      simpa using ih

/-- C2: fewer than 3 matched marker ids make `compare_with_reference` raise
the insufficient-markers error (no affine solve is reached), and
`process_bubble_sheet` then returns `results = None, success = False`. -/
theorem insufficient_markers (refM curM : List Marker) (grade : GradeResult)
    (hndR : (refM.map Marker.id).Nodup) (hndC : (curM.map Marker.id).Nodup)
    (hlt : (commonIds refM curM).length < 3) :
    compare_with_reference refM (some curM)
        = Except.error "Not enough matching markers found" ∧
    process_bubble_sheet refM (some curM) grade
        = { results := none, success := false,
            message :=
              "Error processing bubble sheet: Not enough matching markers found" } := by
  have hp : (matchedPairs refM curM).length < 3 := by
    rw [matchedPairs_length refM curM hndC]
    exact hlt
  have hc : compare_with_reference refM (some curM)
      = Except.error "Not enough matching markers found" := by
    show (if (matchedPairs refM curM).length < 3 then _ else _)
        = Except.error "Not enough matching markers found"
    rw [if_pos hp]
  refine ⟨hc, ?_⟩
  unfold process_bubble_sheet
  rw [hc]
  rfl

/-- Witness for C2: reference ids `{0,1,2}`, current ids `{0,1,9}` — two
common ids. -/
theorem insufficient_markers_witness :
    ((refW.map Marker.id).Nodup ∧ (curW.map Marker.id).Nodup ∧
      (commonIds refW curW).length < 3) ∧
    compare_with_reference refW (some curW)
        = Except.error "Not enough matching markers found" := by
  refine ⟨⟨by decide, by decide, by decide⟩,
    (insufficient_markers refW curW emptyGrade (by decide) (by decide)
      (by decide)).1⟩

/-- C3 counterexample: with reference markers stored in order `7, 2, 5, 1`
(all matched), the code passes the pairs of ids `7, 2, 5` — the first three in
stored order — to the affine solve, not those of the three smallest common
ids `1, 2, 5` as the spec claims. -/
theorem affine_selection_not_ascending :
    compare_with_reference refEx (some curEx)
        = Except.ok ([(0, 1), (10, 1), (20, 1)], [(0, 0), (1, 0), (2, 0)]) ∧
    specAscendingSelection refEx curEx
        = ([(30, 1), (10, 1), (20, 1)], [(3, 0), (1, 0), (2, 0)]) ∧
    compare_with_reference refEx (some curEx)
        ≠ Except.ok (specAscendingSelection refEx curEx) := by
  have h1 : compare_with_reference refEx (some curEx)
      = Except.ok ([(0, 1), (10, 1), (20, 1)], [(0, 0), (1, 0), (2, 0)]) := rfl
  have h2 : specAscendingSelection refEx curEx
      = ([(30, 1), (10, 1), (20, 1)], [(3, 0), (1, 0), (2, 0)]) := by decide
  refine ⟨h1, h2, ?_⟩
  rw [h1, h2]
  intro h
  injection h with h'
  exact absurd h' (by decide)

/-- C3 amended: when the current ids are duplicate-free and at least 3 pairs
match, the pairs passed to the affine solve are the first 3 in
reference-list order — each reference marker paired with the first current
marker of equal id — with no sorting by id. -/
theorem affine_selection_reference_order (refM curM : List Marker)
    (hnd : (curM.map Marker.id).Nodup)
    (h3 : 3 ≤ (matchedPairs refM curM).length) :
    compare_with_reference refM (some curM)
      = Except.ok
          (((orderedMatchedPairs refM curM).take 3).map Prod.snd,
           ((orderedMatchedPairs refM curM).take 3).map Prod.fst) := by
  have hc : compare_with_reference refM (some curM)
      = Except.ok ((matchedPairs refM curM).map Prod.snd |>.take 3,
                   (matchedPairs refM curM).map Prod.fst |>.take 3) := by
    show (if (matchedPairs refM curM).length < 3 then _ else _) = _
    rw [if_neg (not_lt.mpr h3)]
  rw [hc, matchedPairs_eq_ordered refM curM hnd]
  rw [← List.map_take, ← List.map_take]

/-- Witness for the C3 amended theorem at the `refEx`/`curEx` marker lists. -/
theorem affine_selection_reference_order_witness :
    ((curEx.map Marker.id).Nodup ∧ 3 ≤ (matchedPairs refEx curEx).length) ∧
    compare_with_reference refEx (some curEx)
      = Except.ok
          (((orderedMatchedPairs refEx curEx).take 3).map Prod.snd,
           ((orderedMatchedPairs refEx curEx).take 3).map Prod.fst) :=
  ⟨⟨by decide, by decide⟩,
    affine_selection_reference_order refEx curEx (by decide) (by decide)⟩

/-- C9 counterexample: when the detector finds nothing, `detect_aruco_markers`
returns `None`, not the empty marker list the spec claims. -/
theorem marker_detector_returns_none :
    detect_aruco_markers none = none ∧
    detect_aruco_markers none ≠ some ([] : List Marker) :=
  ⟨rfl, fun h => Option.noConfusion h⟩

/-- C9 amended: on a no-detection input the marker detector returns `None`
without raising (it is a total function); the registration caller is the one
that raises, with the no-markers error.  On a detection it maps every raw
marker to its id/centroid record. -/
theorem marker_detector_none_behaviour :
    detect_aruco_markers none = none ∧
    (∀ refM : List Marker,
      compare_with_reference refM (detect_aruco_markers none)
        = Except.error "No ArUco markers detected in current image") ∧
    (∀ raw : List (ℕ × List Point),
      detect_aruco_markers (some raw)
        = some (raw.map (fun rc => { id := rc.1, center := centroid rc.2 }))) :=
  ⟨rfl, fun _ => rfl, fun _ => rfl⟩

/-! ### Lemmas about the fallback bubble detector -/

lemma fallback_foldl_flatMap (accepted : ℕ → List Candidate) :
    ∀ (methods : List ℕ) (init : Option Candidate × ℚ),
      methods.foldl (fun best m => (accepted m).foldl fallbackStep best) init
        = (methods.flatMap accepted).foldl fallbackStep init := by
  intro methods
  induction methods with
  | nil => intro init; rfl
  | cons m ms ih =>
    intro init
    rw [List.foldl_cons, List.flatMap_cons, List.foldl_append]
    exact ih _

lemma fallbackStep_snd_le (l : List Candidate) :
    ∀ b : Option Candidate × ℚ, b.2 ≤ (l.foldl fallbackStep b).2 := by
  induction l with
  | nil => intro b; exact le_refl _
  | cons c cs ih =>
    intro b
    rw [List.foldl_cons]
    refine le_trans ?_ (ih (fallbackStep b c))
    unfold fallbackStep
    by_cases h : b.2 < c.circularity
    · rw [if_pos h]; exact le_of_lt h
    · rw [if_neg h]

lemma fallbackStep_mem_le (l : List Candidate) :
    ∀ (b : Option Candidate × ℚ) (c : Candidate), c ∈ l →
      c.circularity ≤ (l.foldl fallbackStep b).2 := by
  induction l with
  | nil => intro b c hc; exact absurd hc (by simp)
  | cons a as ih =>
    intro b c hc
    rw [List.foldl_cons]
    rcases List.mem_cons.mp hc with rfl | htail
    · refine le_trans ?_ (fallbackStep_snd_le as (fallbackStep b c))
      unfold fallbackStep
      by_cases h : b.2 < c.circularity
      · rw [if_pos h]
      · rw [if_neg h]; exact le_of_not_lt h
    · exact ih (fallbackStep b a) c htail

lemma fallbackStep_attained (l : List Candidate) :
    ∀ b : Option Candidate × ℚ,
      l.foldl fallbackStep b = b ∨
        ∃ c ∈ l, l.foldl fallbackStep b = (some c, c.circularity) := by
  induction l with
  | nil => intro b; exact Or.inl rfl
  | cons a as ih =>
    intro b
    rw [List.foldl_cons]
    rcases ih (fallbackStep b a) with heq | ⟨c, hc, heq⟩
    · rw [heq]
      unfold fallbackStep
      by_cases h : b.2 < a.circularity
      · rw [if_pos h]
        exact Or.inr ⟨a, by simp, rfl⟩
      · rw [if_neg h]
        exact Or.inl rfl
    · exact Or.inr ⟨c, by simp [hc], heq⟩

/-- C4 counterexample: with strategy 0 accepting a candidate of circularity
1/2 and strategy 1 accepting one of circularity 9/10, the code runs **both**
strategies and returns the second candidate, whereas the spec's
stop-at-first-success combinator would return the first.  The two disagree,
refuting the claim that strategies after the first successful one are not
attempted. -/
theorem fallback_no_early_exit :
    detect_bubble_fallback accEx [0, 1] = (some candHigh, 9/10) ∧
    specFirstSuccessFallback accEx [0, 1] = (some candLow, 1/2) ∧
    detect_bubble_fallback accEx [0, 1]
      ≠ specFirstSuccessFallback accEx [0, 1] := by
  refine ⟨by decide, by decide, by decide⟩

/-- C4 amended: `detect_bubble_fallback` runs every strategy in the given
order with no early exit, and — whenever some accepted candidate has positive
circularity — returns a candidate of maximal circularity among the accepted
candidates of **all** strategies in the list. -/
theorem fallback_best_over_all_strategies (accepted : ℕ → List Candidate)
    (methods : List ℕ)
    (h : ∃ c ∈ methods.flatMap accepted, 0 < c.circularity) :
    ∃ c ∈ methods.flatMap accepted,
      detect_bubble_fallback accepted methods = (some c, c.circularity) ∧
      ∀ d ∈ methods.flatMap accepted, d.circularity ≤ c.circularity := by
  obtain ⟨c0, hc0, hpos⟩ := h
  rw [show detect_bubble_fallback accepted methods
      = (methods.flatMap accepted).foldl fallbackStep (none, 0) from
    fallback_foldl_flatMap accepted methods (none, 0)]
  rcases fallbackStep_attained (methods.flatMap accepted) (none, 0) with
    heq | ⟨c, hc, heq⟩
  · exfalso
    have hle := fallbackStep_mem_le (methods.flatMap accepted) (none, 0) c0 hc0
    rw [heq] at hle
    exact absurd (lt_of_lt_of_le hpos hle) (by norm_num)
  · refine ⟨c, hc, heq, fun d hd => ?_⟩
    have hle := fallbackStep_mem_le (methods.flatMap accepted) (none, 0) d hd
    rw [heq] at hle
    exact hle

/-- Witness for the C4 amended theorem at the two-strategy example. -/
theorem fallback_best_over_all_strategies_witness :
    (∃ c ∈ ([0, 1] : List ℕ).flatMap accEx, 0 < c.circularity) ∧
    (∃ c ∈ ([0, 1] : List ℕ).flatMap accEx,
      detect_bubble_fallback accEx [0, 1] = (some c, c.circularity) ∧
      ∀ d ∈ ([0, 1] : List ℕ).flatMap accEx,
        d.circularity ≤ c.circularity) :=
  ⟨⟨candHigh, by decide, by norm_num [candHigh]⟩,
    fallback_best_over_all_strategies accEx [0, 1]
      ⟨candHigh, by decide, by norm_num [candHigh]⟩⟩

/-! ### The fill scorer -/

/-- C5: for a non-empty image and a mask with at least one pixel, the fill
scorer returns exactly the 0.4/0.3/0.3-weighted average of the three
estimates (inverted mean intensity, Otsu foreground percentage, adaptive
foreground percentage), for any adaptive classifier. -/
theorem fill_scorer_weighted_average (adapt : AdaptClassifier)
    (g : GrayImage) (mask : ℕ → ℕ → Bool) (hsz : 0 < g.w * g.h)
    (hm : 0 < maskCount g mask) :
    calculate_fill_percentage adapt g mask =
      (4/10) * specMeanEstimate g mask + (3/10) * specOtsuEstimate g mask
        + (3/10) * specAdaptEstimate adapt g mask := by
  unfold calculate_fill_percentage specMeanEstimate specOtsuEstimate
    specAdaptEstimate
  rw [if_neg (Nat.pos_iff_ne_zero.mp hsz)]
  simp only [if_pos hm]
  ring

/-- Witness for C5 on a 1×1 black image with an all-true mask. -/
theorem fill_scorer_weighted_average_witness :
    (0 < onePixel.w * onePixel.h ∧ 0 < maskCount onePixel fullMask) ∧
    calculate_fill_percentage adaptNone onePixel fullMask =
      (4/10) * specMeanEstimate onePixel fullMask
        + (3/10) * specOtsuEstimate onePixel fullMask
        + (3/10) * specAdaptEstimate adaptNone onePixel fullMask :=
  ⟨⟨by decide, by decide⟩,
    fill_scorer_weighted_average adaptNone onePixel fullMask (by decide)
      (by decide)⟩

/-! ### Evaluating the Otsu search on the C6 images

The Otsu loop runs over all 256 bins; on the two 13×1 images only the bins
100, 120 (and 0 for the darkened image) are occupied.  The three lemmas below show
that a run of empty bins leaves the search state unchanged, which lets the
256-step fold be evaluated segment by segment. -/

lemma otsuFold_zeros_start (hg : ℕ → ℕ) (scale mu : ℚ) :
    ∀ l : List ℕ, (∀ i ∈ l, hg i = 0) →
      ∀ s : OtsuState, s.q1 = 0 → s.mu1 = 0 →
        l.foldl (otsuStep hg scale mu) s = s := by
  intro l
  induction l with
  | nil => intro _ s _ _; rfl
  | cons i l ih =>
    intro hz s hq1 hmu1
    rw [List.foldl_cons]
    have hstep : otsuStep hg scale mu s i = s := by
      obtain ⟨q1, mu1, ms, mv⟩ := s
      simp only at hq1 hmu1
      subst hq1
      subst hmu1
      simp only [otsuStep]
      rw [hz i (by simp)]
      norm_num
    rw [hstep]
    exact ih (fun j hj => hz j (by simp [hj])) s hq1 hmu1

lemma otsuFold_zeros_mid (hg : ℕ → ℕ) (scale mu : ℚ) :
    ∀ l : List ℕ, (∀ i ∈ l, hg i = 0) →
      ∀ s : OtsuState, s.q1 ≠ 0 → 1 - s.q1 ≠ 0 →
        otsuSigma mu s ≤ s.maxSigma →
        l.foldl (otsuStep hg scale mu) s = s := by
  intro l
  induction l with
  | nil => intro _ s _ _ _; rfl
  | cons i l ih =>
    intro hz s hq1 hq2 hsig
    rw [List.foldl_cons]
    have hstep : otsuStep hg scale mu s i = s := by
      obtain ⟨q1, mu1, ms, mv⟩ := s
      simp only at hq1 hq2
      simp only [otsuSigma] at hsig
      simp only [otsuStep]
      rw [hz i (by simp)]
      rw [Nat.cast_zero, zero_mul, add_zero]
      rw [if_neg (by push_neg; exact ⟨hq1, hq2⟩)]
      rw [mul_zero, add_zero, mul_div_cancel_right₀ _ hq1]
      rw [if_neg (not_lt.mpr hsig)]
    rw [hstep]
    exact ih (fun j hj => hz j (by simp [hj])) s hq1 hq2 hsig

lemma otsuFold_zeros_end (hg : ℕ → ℕ) (scale mu : ℚ) :
    ∀ l : List ℕ, (∀ i ∈ l, hg i = 0) →
      ∀ s : OtsuState, s.q1 = 1 →
        l.foldl (otsuStep hg scale mu) s = s := by
  intro l
  induction l with
  | nil => intro _ s _; rfl
  | cons i l ih =>
    intro hz s hq1
    rw [List.foldl_cons]
    have hstep : otsuStep hg scale mu s i = s := by
      obtain ⟨q1, mu1, ms, mv⟩ := s
      simp only at hq1
      subst hq1
      simp only [otsuStep]
      rw [hz i (by simp)]
      norm_num
    rw [hstep]
    exact ih (fun j hj => hz j (by simp [hj])) s hq1

lemma mapSum_zero (hg : ℕ → ℕ) (l : List ℕ) (h : ∀ i ∈ l, hg i = 0) :
    (l.map (fun (i : ℕ) => (i : ℚ) * (hg i : ℚ))).sum = 0 := by
  induction l with
  | nil => rfl
  | cons i l ih =>
    rw [List.map_cons, List.sum_cons, h i (by simp),
      ih (fun j hj => h j (by simp [hj]))]
    norm_num

lemma otsuThreshold_eq (g : GrayImage) :
    otsuThreshold g
      = ((List.range 256).foldl
          (otsuStep (hist g) (1 / ((g.w * g.h : ℕ) : ℚ))
            ((((List.range 256).map
                (fun (i : ℕ) => (i : ℚ) * (hist g i : ℚ))).sum)
              * (1 / ((g.w * g.h : ℕ) : ℚ))))
          { q1 := 0, mu1 := 0, maxSigma := 0, maxVal := 0 }).maxVal := rfl

set_option maxRecDepth 4000 in
lemma otsu_gBefore : otsuThreshold gBefore = 100 := by
  have hz1 : ∀ i ∈ List.range' 0 100, hist gBefore i = 0 := by decide
  have hz2 : ∀ i ∈ List.range' 101 19, hist gBefore i = 0 := by decide
  have hz3 : ∀ i ∈ List.range' 121 135, hist gBefore i = 0 := by decide
  have hh100 : hist gBefore 100 = 5 := by decide
  have hh120 : hist gBefore 120 = 8 := by decide
  have hsplit : List.range 256
      = List.range' 0 100 ++ [100] ++ List.range' 101 19 ++ [120]
        ++ List.range' 121 135 := by decide
  have hscale : (1 / ((gBefore.w * gBefore.h : ℕ) : ℚ)) = 1 / 13 := by
    norm_num [gBefore]
  have hmusum : ((List.range 256).map
      (fun (i : ℕ) => (i : ℚ) * (hist gBefore i : ℚ))).sum = 1460 := by
    rw [hsplit]
    rw [List.map_append, List.map_append, List.map_append, List.map_append]
    rw [List.sum_append, List.sum_append, List.sum_append, List.sum_append]
    rw [mapSum_zero _ _ hz1, mapSum_zero _ _ hz2, mapSum_zero _ _ hz3]
    rw [List.map_cons, List.map_nil, List.sum_cons, List.sum_nil]
    rw [List.map_cons, List.map_nil, List.sum_cons, List.sum_nil]
    rw [hh100, hh120]
    norm_num
  have hstep100 : otsuStep (hist gBefore) (1 / 13) (1460 / 13)
      { q1 := 0, mu1 := 0, maxSigma := 0, maxVal := 0 } 100
      = { q1 := 5/13, mu1 := 100, maxSigma := 16000/169, maxVal := 100 } := by
    simp only [otsuStep]
    rw [hh100]
    norm_num
  have hstep120 : otsuStep (hist gBefore) (1 / 13) (1460 / 13)
      { q1 := 5/13, mu1 := 100, maxSigma := 16000/169, maxVal := 100 } 120
      = { q1 := 1, mu1 := 500/13, maxSigma := 16000/169, maxVal := 100 } := by
    simp only [otsuStep]
    rw [hh120]
    norm_num
  rw [otsuThreshold_eq, hscale, hmusum]
  rw [show ((1460 : ℚ) * (1 / 13)) = 1460 / 13 by norm_num]
  rw [hsplit]
  rw [List.foldl_append, List.foldl_append, List.foldl_append,
    List.foldl_append]
  simp only [List.foldl_cons, List.foldl_nil]
  rw [otsuFold_zeros_start _ _ _ _ hz1 _ rfl rfl]
  rw [hstep100]
  rw [otsuFold_zeros_mid _ _ _ _ hz2 _ (by norm_num) (by norm_num)
    (by simp only [otsuSigma]; norm_num)]
  rw [hstep120]
  rw [otsuFold_zeros_end _ _ _ _ hz3 _ rfl]

set_option maxRecDepth 4000 in
lemma otsu_gAfter : otsuThreshold gAfter = 0 := by
  have hz1 : ∀ i ∈ List.range' 1 99, hist gAfter i = 0 := by decide
  have hz2 : ∀ i ∈ List.range' 101 19, hist gAfter i = 0 := by decide
  have hz3 : ∀ i ∈ List.range' 121 135, hist gAfter i = 0 := by decide
  have hh0 : hist gAfter 0 = 1 := by decide
  have hh100 : hist gAfter 100 = 5 := by decide
  have hh120 : hist gAfter 120 = 7 := by decide
  have hsplit : List.range 256
      = [0] ++ List.range' 1 99 ++ [100] ++ List.range' 101 19 ++ [120]
        ++ List.range' 121 135 := by decide
  have hscale : (1 / ((gAfter.w * gAfter.h : ℕ) : ℚ)) = 1 / 13 := by
    norm_num [gAfter]
  have hmusum : ((List.range 256).map
      (fun (i : ℕ) => (i : ℚ) * (hist gAfter i : ℚ))).sum = 1340 := by
    rw [hsplit]
    rw [List.map_append, List.map_append, List.map_append, List.map_append,
      List.map_append]
    rw [List.sum_append, List.sum_append, List.sum_append, List.sum_append,
      List.sum_append]
    rw [mapSum_zero _ _ hz1, mapSum_zero _ _ hz2, mapSum_zero _ _ hz3]
    rw [List.map_cons, List.map_nil, List.sum_cons, List.sum_nil]
    rw [List.map_cons, List.map_nil, List.sum_cons, List.sum_nil]
    rw [List.map_cons, List.map_nil, List.sum_cons, List.sum_nil]
    rw [hh0, hh100, hh120]
    norm_num
  have hstep0 : otsuStep (hist gAfter) (1 / 13) (1340 / 13)
      { q1 := 0, mu1 := 0, maxSigma := 0, maxVal := 0 } 0
      = { q1 := 1/13, mu1 := 0, maxSigma := 448900/507, maxVal := 0 } := by
    simp only [otsuStep]
    rw [hh0]
    norm_num
  have hstep100 : otsuStep (hist gAfter) (1 / 13) (1340 / 13)
      { q1 := 1/13, mu1 := 0, maxSigma := 448900/507, maxVal := 0 } 100
      = { q1 := 6/13, mu1 := 250/3, maxSigma := 448900/507, maxVal := 0 } := by
    simp only [otsuStep]
    rw [hh100]
    norm_num
  have hstep120 : otsuStep (hist gAfter) (1 / 13) (1340 / 13)
      { q1 := 6/13, mu1 := 250/3, maxSigma := 448900/507, maxVal := 0 } 120
      = { q1 := 1, mu1 := 500/13, maxSigma := 448900/507, maxVal := 0 } := by
    simp only [otsuStep]
    rw [hh120]
    norm_num
  rw [otsuThreshold_eq, hscale, hmusum]
  rw [show ((1340 : ℚ) * (1 / 13)) = 1340 / 13 by norm_num]
  rw [hsplit]
  rw [List.foldl_append, List.foldl_append, List.foldl_append,
    List.foldl_append, List.foldl_append]
  simp only [List.foldl_cons, List.foldl_nil]
  rw [hstep0]
  rw [otsuFold_zeros_mid _ _ _ _ hz1 _ (by norm_num) (by norm_num)
    (by simp only [otsuSigma]; norm_num)]
  rw [hstep100]
  rw [otsuFold_zeros_mid _ _ _ _ hz2 _ (by norm_num) (by norm_num)
    (by simp only [otsuSigma]; norm_num)]
  rw [hstep120]
  rw [otsuFold_zeros_end _ _ _ _ hz3 _ rfl]

lemma mem_posList {w h : ℕ} {q : ℕ × ℕ} (hq : q ∈ posList w h) :
    q.1 < w ∧ q.2 < h := by
  unfold posList at hq
  simp only [List.mem_flatMap, List.mem_map, List.mem_range] at hq
  obtain ⟨y, hy, x, hx, rfl⟩ := hq
  exact ⟨hx, hy⟩

lemma otsuFg_gBefore : otsuFgCount gBefore exMask = 5 := by
  simp only [otsuFgCount, otsu_gBefore]
  decide

lemma otsuFg_gAfter : otsuFgCount gAfter exMask = 1 := by
  simp only [otsuFgCount, otsu_gAfter]
  decide

lemma fill_gBefore (adapt : AdaptClassifier) :
    calculate_fill_percentage adapt gBefore exMask
      = 3640/153 + 25 + 5 * (adaptFgCount adapt gBefore exMask : ℚ) := by
  have hmean : maskMean gBefore exMask = 310/3 := by decide
  have hmc : maskCount gBefore exMask = 6 := by decide
  unfold calculate_fill_percentage
  rw [if_neg (by decide : ¬(gBefore.w * gBefore.h = 0))]
  simp only [hmean, hmc, otsuFg_gBefore]
  norm_num
  ring

lemma fill_gAfter (adapt : AdaptClassifier) :
    calculate_fill_percentage adapt gAfter exMask
      = 4120/153 + 5 + 5 * (adaptFgCount adapt gAfter exMask : ℚ) := by
  have hmean : maskMean gAfter exMask = 250/3 := by decide
  have hmc : maskCount gAfter exMask = 6 := by decide
  unfold calculate_fill_percentage
  rw [if_neg (by decide : ¬(gAfter.w * gAfter.h = 0))]
  simp only [hmean, hmc, otsuFg_gAfter]
  norm_num
  ring

lemma adapt_agree_on_bubble (adapt : AdaptClassifier) (hL : Local5 adapt)
    (x : ℕ) (hx : x ≤ 4) : adapt gAfter x 0 = adapt gBefore x 0 := by
  apply hL gAfter gBefore x 0 rfl rfl
  intro u v hu1 _ _ _
  have hu9 : u ≤ 9 := by omega
  show (if u ≤ 4 then 100 else if u = 12 then 0 else 120)
      = (if u ≤ 4 then 100 else 120)
  split_ifs <;> omega

lemma adaptCount_bound (adapt : AdaptClassifier) (hL : Local5 adapt) :
    adaptFgCount adapt gAfter exMask ≤ adaptFgCount adapt gBefore exMask + 1 := by
  have hposA : posList gAfter.w gAfter.h
      = [(0,0),(1,0),(2,0),(3,0),(4,0),(5,0),(6,0),(7,0),(8,0),(9,0),(10,0),
         (11,0),(12,0)] := by decide
  have hposB : posList gBefore.w gBefore.h
      = [(0,0),(1,0),(2,0),(3,0),(4,0),(5,0),(6,0),(7,0),(8,0),(9,0),(10,0),
         (11,0),(12,0)] := by decide
  unfold adaptFgCount
  rw [hposA, hposB]
  rw [← List.countP_eq_length_filter, ← List.countP_eq_length_filter]
  simp only [List.countP_cons, List.countP_nil, exMask]
  norm_num
  rw [adapt_agree_on_bubble adapt hL 0 (by norm_num),
    adapt_agree_on_bubble adapt hL 1 (by norm_num),
    adapt_agree_on_bubble adapt hL 2 (by norm_num),
    adapt_agree_on_bubble adapt hL 3 (by norm_num),
    adapt_agree_on_bubble adapt hL 4 (by norm_num)]
  cases h12A : adapt gAfter 12 0 <;> cases h12B : adapt gBefore 12 0 <;>
    simp [h12A, h12B] <;> omega

/-- C6 counterexample: darkening one mask pixel of the 13×1 example image
from 120 to 0 — a pointwise darkening inside the mask with everything else
unchanged — strictly DECREASES the returned fill percentage for every
adaptive classifier with the 11×11 locality of OpenCV's `adaptiveThreshold`:
the recomputed Otsu threshold drops from 100 to 0, declassifying the five
bubble pixels. -/
theorem fill_scorer_not_monotone :
    DarkensWithin exMask gBefore gAfter ∧
    ∀ adapt : AdaptClassifier, Local5 adapt →
      calculate_fill_percentage adapt gAfter exMask
        < calculate_fill_percentage adapt gBefore exMask := by
  constructor
  · refine ⟨rfl, rfl, ?_⟩
    decide
  · intro adapt hL
    rw [fill_gAfter adapt, fill_gBefore adapt]
    have hb := adaptCount_bound adapt hL
    have hb' : (adaptFgCount adapt gAfter exMask : ℚ)
        ≤ (adaptFgCount adapt gBefore exMask : ℚ) + 1 := by
      exact_mod_cast hb
    linarith

/-- C6 amended: the fill scorer is monotone under pointwise darkening inside
the mask whenever the darkening does not change the Otsu and adaptive
foreground classifications of the mask (in particular, the mean-intensity
estimate alone never decreases); the unrestricted claim fails because those
recomputed thresholds can reclassify pixels. -/
theorem fill_scorer_monotone_fixed_classes (adapt : AdaptClassifier)
    (g g' : GrayImage) (mask : ℕ → ℕ → Bool)
    (hd : DarkensWithin mask g g')
    (ho : otsuFgCount g' mask = otsuFgCount g mask)
    (ha : adaptFgCount adapt g' mask = adaptFgCount adapt g mask) :
    calculate_fill_percentage adapt g mask
      ≤ calculate_fill_percentage adapt g' mask := by
  obtain ⟨hw, hh, hpx⟩ := hd
  have hmc : maskCount g' mask = maskCount g mask := by
    unfold maskCount
    rw [hw, hh]
  have hmean : maskMean g' mask ≤ maskMean g mask := by
    unfold maskMean
    rw [hw, hh, hmc]
    rcases Nat.eq_zero_or_pos (maskCount g mask) with hz | hpos
    · rw [hz]
      norm_num
    · apply (div_le_div_right (by exact_mod_cast hpos : (0:ℚ) < maskCount g mask)).mpr
      apply List.sum_le_sum
      intro q hq
      have hmem := List.mem_filter.mp hq
      have hdom : q.1 < g.w ∧ q.2 < g.h := mem_posList hmem.1
      have := hpx q.1 hdom.1 q.2 hdom.2
      rw [hmem.2] at this
      exact_mod_cast this
  unfold calculate_fill_percentage
  rw [hw, hh]
  by_cases hz : g.w * g.h = 0
  · rw [if_pos hz, if_pos hz]
  · rw [if_neg hz, if_neg hz]
    simp only [hmc, ho, ha]
    have h1 : (255 - maskMean g mask) / 255 * 100 * (4/10)
        ≤ (255 - maskMean g' mask) / 255 * 100 * (4/10) := by
      have : maskMean g' mask ≤ maskMean g mask := hmean
      linarith
    by_cases hm : 0 < maskCount g mask
    · simp only [if_pos hm]
      linarith
    · simp only [if_neg hm]
      linarith

/-- Witness for the C6 amended theorem: the identity darkening on the 1×1
image with unchanged classifications. -/
theorem fill_scorer_monotone_fixed_classes_witness :
    (DarkensWithin fullMask onePixel onePixel ∧
      otsuFgCount onePixel fullMask = otsuFgCount onePixel fullMask ∧
      adaptFgCount adaptNone onePixel fullMask
        = adaptFgCount adaptNone onePixel fullMask) ∧
    calculate_fill_percentage adaptNone onePixel fullMask
      ≤ calculate_fill_percentage adaptNone onePixel fullMask :=
  ⟨⟨⟨rfl, rfl, by decide⟩, rfl, rfl⟩,
    fill_scorer_monotone_fixed_classes adaptNone onePixel onePixel fullMask
      ⟨rfl, rfl, by decide⟩ rfl rfl⟩

end Teacher
